import Mathlib

/-!
Shallow embedding of the certificate-management core of the `sslserver`
repository (Go), for checking its natural-language specification.

The embedding covers:
* the framed Command wire protocol of `main.go` (`initParent` / `initChild`):
  the outbound encoder (kind line, name line, decimal payload-length line,
  raw payload bytes) and the inbound decoder (line reading with
  `strings.TrimSpace` semantics, `strconv.Atoi` of the length line,
  `io.ReadFull` of the payload);
* the Remote Cache Proxy `DirCache.Get` / `DirCache.Put` of
  `certificates.go` (the child-side cache backed by the supervisor via the
  command channel);
* the certificate resolution engine `getCertificate` and the self-signed
  issuer `getTLSCert` of `certificates.go`.

Go byte strings are modelled as `List Nat` (one `Nat` per byte); process
exits via `log.Fatal` (and the `make([]byte, n)` panic on a negative `n`)
are modelled by an explicit `fatal` result; Go `time.Time` / `time.Duration`
values are modelled as `Int` (nanoseconds); Go maps with pointer values are
modelled as functions into `Option` (`none` = absent or nil entry).
-/

namespace SSLServer

/-- The bytes of an ASCII string literal. -/
def strBytes (s : String) : List Nat :=
  s.data.map (fun c => c.toNat)

/-- The `"[get]"` command-type token of a cache read (`cmdGet` in `main.go`). -/
def cmdGet : List Nat := strBytes "[get]"

/-- The `"[put]"` token (`cmdPut` in `main.go`). -/
def cmdPut : List Nat := strBytes "[put]"

/-- The `"[delete]"` token (`cmdDelete` in `main.go`). -/
def cmdDelete : List Nat := strBytes "[delete]"

/-- The `"[terminate]"` token (`cmdTerminate` in `main.go`). -/
def cmdTerminate : List Nat := strBytes "[terminate]"

/-- A `Command` message exchanged between the supervisor (parent) and the
worker (child): command type, optional name, payload (`main.go`).  Go's
distinction between a nil slice and an empty slice does not exist here:
both are the empty byte list, matching their identical wire encoding. -/
structure Command where
  type : List Nat
  name : List Nat
  data : List Nat
deriving DecidableEq, Repr

/-- Whether a first line is one of the four recognized command tokens
(the test in `initParent` / `initChild`). -/
def isCommandType (t : List Nat) : Bool :=
  t == cmdGet || t == cmdPut || t == cmdDelete || t == cmdTerminate

/-- ASCII whitespace, as trimmed by Go's `strings.TrimSpace` on ASCII text:
space, tab, newline, vertical tab, form feed, carriage return. -/
def isAsciiSpace (b : Nat) : Bool :=
  b == 32 || b == 9 || b == 10 || b == 11 || b == 12 || b == 13

/-- Drop leading ASCII whitespace. -/
def trimLeft (bs : List Nat) : List Nat :=
  bs.dropWhile isAsciiSpace

/-- Drop trailing ASCII whitespace. -/
def trimRight (bs : List Nat) : List Nat :=
  (bs.reverse.dropWhile isAsciiSpace).reverse

/-- Go `strings.TrimSpace` on ASCII bytes. -/
def trimSpace (bs : List Nat) : List Nat :=
  trimLeft (trimRight bs)

/-- Go `bufio.Reader.ReadString('\n')`: the line up to and including the
first newline byte, and the remaining stream; `none` when the stream ends
before a newline (the error case, which the source handles by `log.Fatal`). -/
def readLine : List Nat → Option (List Nat × List Nat)
  | [] => none
  | b :: rest =>
    if b = 10 then some ([10], rest)
    else
      match readLine rest with
      | none => none
      | some (l, r) => some (b :: l, r)

/-- Go `strconv.Itoa` on a non-negative length: most-significant-first
decimal digit bytes (`"0"` for zero). -/
def natToDec (n : Nat) : List Nat :=
  if n = 0 then [48] else ((Nat.digits 10 n).map (fun d => d + 48)).reverse

/-- The numeric value of a most-significant-first run of decimal digit
bytes. -/
def decVal (bs : List Nat) : Nat :=
  bs.foldl (fun a b => 10 * a + (b - 48)) 0

/-- Parse an unsigned run of decimal digit bytes; `none` when empty or when
any byte is not a digit. -/
def digitsToNat (bs : List Nat) : Option Nat :=
  if bs.isEmpty then none
  else if bs.all (fun b => 48 ≤ b && b < 58) then some (decVal bs) else none

/-- Go `strconv.Atoi`: an optional sign followed by decimal digits.
(Integer-overflow errors of the 64-bit `int` are not modelled; the streams
of interest carry lengths far below that bound.) -/
def atoi (bs : List Nat) : Option Int :=
  match bs with
  | [] => none
  | b :: rest =>
    if b = 43 then (digitsToNat rest).map (fun n => (n : Int))
    else if b = 45 then (digitsToNat rest).map (fun n => -(n : Int))
    else (digitsToNat bs).map (fun n => (n : Int))

/-- The outbound pump's encoding of one `Command` (`initChild`, and
symmetrically `initParent`): the type line, the name line, the decimal
payload-length line, then exactly the payload bytes. -/
def encodeCommand (c : Command) : List Nat :=
  (c.type ++ [10]) ++ (c.name ++ [10]) ++ (natToDec c.data.length ++ [10]) ++ c.data

/-- Result of one iteration of the inbound decoder (`initParent`):
a decoded command frame with the rest of the stream, a non-command first
line forwarded as a log line (`Command` with empty name and nil payload),
or a fatal process exit (`log.Fatal` on a read/parse error, or the
`make([]byte, n)` panic on a negative parsed length). -/
inductive DecodeOut where
  | frame (c : Command) (rest : List Nat)
  | logLine (c : Command) (rest : List Nat)
  | fatal
deriving DecidableEq, Repr

/-- One iteration of the parent's inbound decoder loop (`initParent`,
`main.go`): read the type line; a non-command line is forwarded as a log
line; otherwise read the name line, the length line (`strconv.Atoi` after
`strings.TrimSpace`), then exactly that many payload bytes
(`io.ReadFull`). -/
def decodeStep (s : List Nat) : DecodeOut :=
  match readLine s with
  | none => .fatal
  | some (l1, r1) =>
    let commandType := trimSpace l1
    if ¬ isCommandType commandType then
      .logLine { type := commandType, name := [], data := [] } r1
    else
      match readLine r1 with
      | none => .fatal
      | some (l2, r2) =>
        let fileName := trimSpace l2
        match readLine r2 with
        | none => .fatal
        | some (l3, r3) =>
          match atoi (trimSpace l3) with
          | none => .fatal
          | some dataLength =>
            if dataLength < 0 then .fatal
            else if r3.length < dataLength.toNat then .fatal
            else
              .frame { type := commandType, name := fileName,
                       data := r3.take dataLength.toNat } (r3.drop dataLength.toNat)

/-- A Go map from names to byte slices (`certCacheBytes` in
`certificates.go`); `none` models both an absent key and a nil value. -/
abbrev Store := List Nat → Option (List Nat)

/-- Update a map at one key. -/
def updateStore (m : Store) (k : List Nat) (v : Option (List Nat)) : Store :=
  fun k2 => if k2 = k then v else m k2

/-- Result of `DirCache.Get`: the bytes found, or `autocert.ErrCacheMiss`. -/
inductive CacheGetRes where
  | hit (bytes : List Nat)
  | miss
deriving DecidableEq, Repr

/-- The reply-matching loop of `DirCache.Get` (`certificates.go`): range
over the inbound channel; a `[get]` reply for the requested name with an
empty payload is a cache miss, one with bytes is stored in
`certCacheBytes` and returned; replies for other names and other command
types are skipped.  `responses` is the finite sequence of commands
delivered on `parentToChildCh` during the call; `closed` tells whether the
channel is closed after them (ending the `range`, which falls through to
`ErrCacheMiss`).  `none` means the loop is still blocked waiting on the
channel — `Get` has not returned. -/
def dirCacheGetLoop (name : List Nat) (bytesCache : Store) :
    List Command → Bool → Option (CacheGetRes × Store)
  | [], closed => if closed then some (.miss, bytesCache) else none
  | r :: rest, closed =>
    if r.type = cmdGet then
      if r.name ≠ name then dirCacheGetLoop name bytesCache rest closed
      else if r.data.length = 0 then some (.miss, bytesCache)
      else some (.hit r.data, updateStore bytesCache name (some r.data))
    else dirCacheGetLoop name bytesCache rest closed

/-- The outcome of a `DirCache.Get` call: the result together with the
updated `certCacheBytes` (or `none` while the call is still blocked), and
the commands the call sent to the supervisor on `childToParentCh`. -/
structure GetOut where
  result : Option (CacheGetRes × Store)
  sent : List Command

/-- The proxy read `DirCache.Get` (`certificates.go`): return a locally cached value if
present; otherwise send a `[get]` Command to the supervisor and block on
the inbound channel for a matching reply. -/
def dirCacheGet (bytesCache : Store) (name : List Nat)
    (responses : List Command) (closed : Bool) : GetOut :=
  match bytesCache name with
  | some cert => ⟨some (.hit cert, bytesCache), []⟩
  | none =>
    ⟨dirCacheGetLoop name bytesCache responses closed,
     [{ type := cmdGet, name := name, data := [] }]⟩

/-- The error of `DirCache.Put` on an empty payload
(`"Could not store certificate data: " + name`). -/
inductive PutErr where
  | emptyData (name : List Nat)
deriving DecidableEq, Repr

/-- The outcome of a `DirCache.Put` call. -/
structure PutOut where
  result : Except PutErr Unit
  bytesCache : Store
  sent : List Command

/-- The proxy write `DirCache.Put` (`certificates.go`): reject an empty payload, otherwise
store locally and enqueue a `[put]` Command for the supervisor
(fire-and-forget). -/
def dirCachePut (bytesCache : Store) (name data : List Nat) : PutOut :=
  if data.length = 0 then
    ⟨.error (.emptyData name), bytesCache, []⟩
  else
    ⟨.ok (), updateStore bytesCache name (some data),
     [{ type := cmdPut, name := name, data := data }]⟩

/-- One nanosecond-count hour (`time.Hour`). -/
def timeHour : Int := 3600 * 1000000000

/-- The fields of a parsed X.509 certificate that the engine reads or sets
(`x509.Certificate` / the template built in `getTLSCert`). -/
structure Leaf where
  serialNumber : Int
  commonName : List Nat
  notBefore : Int
  notAfter : Int
deriving DecidableEq, Repr

/-- A `tls.Certificate`: `leaf` is the lazily-memoized parsed form
(`Leaf == nil` in Go when `none`); `content` is what parsing its raw
certificate bytes yields; `parseable` is whether `x509.ParseCertificate`
succeeds on those bytes. -/
structure TLSCert where
  leaf : Option Leaf
  content : Leaf
  parseable : Bool
deriving DecidableEq, Repr

/-- Go `x509.ParseCertificate` on a certificate's raw bytes. -/
def parseCertificate (c : TLSCert) : Option Leaf :=
  if c.parseable then some c.content else none

/-- The in-memory self-signed certificate cache (`certCache`), a Go map
from ASCII names to certificate pointers (`none` = absent or nil). -/
abbrev CertCache := List Nat → Option TLSCert

/-- Update the certificate cache at one key. -/
def updateCert (m : CertCache) (k : List Nat) (v : Option TLSCert) : CertCache :=
  fun k2 => if k2 = k then v else m k2

/-- The errors of `getTLSCert` / `getCertificate` (`errors.New` strings in
the source, and the error returns of the x509 library calls). -/
inductive CertErr where
  | missingServerName
  | invalidChar
  | notInWhiteList (name : List Nat)
  | keyGenFailed
  | certBuildFailed
  | parseFailed
deriving DecidableEq, Repr

/-- The per-call environment of the resolution engine: the outcomes of the
external calls it makes.  `toASCII` is `idna.Lookup.ToASCII` (`none` =
conversion error); `whitelist` is `allowedDomainsSelfSignedWhiteList`;
`now` is the call's `time.Now()` (the nanosecond instants read during one
call are identified — the negligible-clock-skew simplification);
`threshold` is `config.CertificateExpiryRefreshThreshold`; `keyGenOk` /
`certBuildOk` are whether `rsa.GenerateKey` and the certificate
construction (`x509.CreateCertificate` / PEM / `tls.X509KeyPair`) succeed;
`acme` is the outcome of `m.GetCertificate` (the ACME delegate), `some`
on success. -/
structure Env where
  toASCII : List Nat → Option (List Nat)
  whitelist : List Nat → Bool
  now : Int
  threshold : Int
  keyGenOk : Bool
  certBuildOk : Bool
  acme : Option TLSCert

/-- The self-signed issuer `getTLSCert` (`certificates.go`): validate the server name, check the
self-signed whitelist, generate a fresh key pair, and build a self-signed
certificate from the template (serial 412294, common name = ASCII name,
`NotBefore = now`,
`NotAfter = now + CertificateExpiryRefreshThreshold + 14*24*time.Hour`).
The `Bool` records whether the key-generation step was reached
(`rsa.GenerateKey` invoked).  The built `tls.Certificate` has a nil
`Leaf`. -/
def getTLSCert (env : Env) (serverName : List Nat) : Except CertErr TLSCert × Bool :=
  if serverName = [] then (.error .missingServerName, false)
  else
    match env.toASCII serverName with
    | none => (.error .invalidChar, false)
    | some name =>
      if ¬ env.whitelist name then (.error (.notInWhiteList name), false)
      else if ¬ env.keyGenOk then (.error .keyGenFailed, true)
      else if ¬ env.certBuildOk then (.error .certBuildFailed, true)
      else
        (.ok { leaf := none
               content :=
                 { serialNumber := 412294
                   commonName := name
                   notBefore := env.now
                   notAfter := env.now + env.threshold + 14 * 24 * timeHour }
               parseable := true },
         true)

/-- The outcome of a `getCertificate` call: the result, the updated
in-memory certificate cache, and whether self-signed key generation was
invoked during the call. -/
structure ResolveOut where
  result : Except CertErr TLSCert
  cache : CertCache
  keygenInvoked : Bool

/-- The tail of `getCertificate` after the cache check (`certificates.go`):
try `m.GetCertificate`; on success return the certificate (without storing
it in `certCache`); on any ACME error fall back to `getTLSCert`, storing a
successful self-signed certificate in `certCache[name]`. -/
def acmeOrSelfSigned (env : Env) (cache : CertCache)
    (serverName name : List Nat) : ResolveOut :=
  match env.acme with
  | some cert => ⟨.ok cert, cache, false⟩
  | none =>
    match getTLSCert env serverName with
    | (.ok cert, kg) => ⟨.ok cert, updateCert cache name (some cert), kg⟩
    | (.error e, kg) => ⟨.error e, cache, kg⟩

/-- The certificate resolution engine `getCertificate` (`certificates.go`): validate and ASCII-convert the
requested server name; on a non-nil `certCache[name]` entry, parse its
leaf if not yet parsed (memoizing it; a parse error fails the call), then
compare `duration = time.Until(NotAfter)` with the refresh threshold —
`duration < threshold` evicts the entry (`certCache[name] = nil`) and
falls through to acquisition, otherwise the cached entry is returned;
on a miss or after eviction, try ACME then self-signed. -/
def getCertificate (env : Env) (cache0 : CertCache) (serverName : List Nat) : ResolveOut :=
  if serverName = [] then ⟨.error .missingServerName, cache0, false⟩
  else
    match env.toASCII serverName with
    | none => ⟨.error .invalidChar, cache0, false⟩
    | some name =>
      match cache0 name with
      | none => acmeOrSelfSigned env cache0 serverName name
      | some cert0 =>
        let parsed : Option (Leaf × TLSCert × CertCache) :=
          match cert0.leaf with
          | some l => some (l, cert0, cache0)
          | none =>
            match parseCertificate cert0 with
            | none => none
            | some l =>
              let cert1 : TLSCert := { cert0 with leaf := some l }
              some (l, cert1, updateCert cache0 name (some cert1))
        match parsed with
        | none => ⟨.error .parseFailed, cache0, false⟩
        | some (l, cert1, cache1) =>
          let duration := l.notAfter - env.now
          if duration < env.threshold then
            acmeOrSelfSigned env (updateCert cache1 name none) serverName name
          else
            ⟨.ok cert1, cache1, false⟩

/-! ### Concrete instances used by counterexamples and witnesses -/

/-- The domain name `"example.com"`. -/
def exName : List Nat := strBytes "example.com"

/-- An inbound reply that does not match a pending `Get("example.com")`:
a `[get]` reply for a different name. -/
def otherReply : Command := { type := cmdGet, name := strBytes "other.example", data := [1, 2] }

/-- A `[get]` Command whose name is a single space byte. -/
def spaceNameCmd : Command := { type := cmdGet, name := [32], data := [] }

/-- A 48-hour refresh threshold (the configuration default). -/
def thEx : Int := 48 * timeHour

/-- The domain name `"a"`. -/
def nameA : List Nat := strBytes "a"

/-- A parsed certificate expiring exactly at the refresh threshold
(relative to `envBoundary.now = 0`). -/
def leafEx : Leaf := { serialNumber := 1, commonName := nameA, notBefore := 0, notAfter := thEx }

/-- A cached certificate whose leaf is already parsed. -/
def certEx : TLSCert := { leaf := some leafEx, content := leafEx, parseable := true }

/-- An environment where ASCII conversion is the identity, every name is
whitelisted, key generation and certificate construction succeed and ACME
fails. -/
def envBoundary : Env :=
  { toASCII := fun s => some s
    whitelist := fun _ => true
    now := 0
    threshold := thEx
    keyGenOk := true
    certBuildOk := true
    acme := none }

/-- A certificate cache holding only `certEx` under `nameA`. -/
def cacheEx : CertCache := updateCert (fun _ => none) nameA (some certEx)

/-- A certificate as returned by a successful ACME acquisition. -/
def acmeCertEx : TLSCert :=
  { leaf := none
    content := { serialNumber := 7, commonName := nameA, notBefore := 0, notAfter := 1000 }
    parseable := true }

/-- The environment `envBoundary` with a successful ACME acquisition. -/
def envAcme : Env := { envBoundary with acme := some acmeCertEx }

/-- The environment `envBoundary` with an empty whitelist. -/
def envNoWl : Env := { envBoundary with whitelist := fun _ => false }

/-- The self-signed certificate `getTLSCert` builds in `envBoundary` for
`nameA`. -/
def ssCertEx : TLSCert :=
  { leaf := none
    content := { serialNumber := 412294, commonName := nameA,
                 notBefore := envBoundary.now,
                 notAfter := envBoundary.now + envBoundary.threshold + 14 * 24 * timeHour }
    parseable := true }

/-! ### Wire-protocol lemmas -/

theorem readLine_append {x : List Nat} (h : (10 : Nat) ∉ x) (rest : List Nat) :
    readLine (x ++ 10 :: rest) = some (x ++ [10], rest) := by
  induction x with
  | nil => simp [readLine]
  | cons b bs ih =>
    have hb : b ≠ 10 := by
      intro hb
      exact h (by simp [hb])
    have hbs : (10 : Nat) ∉ bs := fun hm => h (List.mem_cons_of_mem _ hm)
    simp [readLine, hb, ih hbs]

theorem dropWhile_eq_self (p : Nat → Bool) (l : List Nat)
    (h : ∀ b ∈ l, p b = false) : l.dropWhile p = l := by
  cases l with
  | nil => rfl
  | cons b bs => simp [List.dropWhile_cons, h b (by simp)]

theorem trimRight_append_ten (x : List Nat) : trimRight (x ++ [10]) = trimRight x := by
  simp [trimRight, List.reverse_append, List.dropWhile_cons, isAsciiSpace]

theorem trimSpace_append_ten (x : List Nat) : trimSpace (x ++ [10]) = trimSpace x := by
  simp [trimSpace, trimRight_append_ten]

theorem trimSpace_eq_self {l : List Nat} (h : ∀ b ∈ l, isAsciiSpace b = false) :
    trimSpace l = l := by
  have h1 : trimRight l = l := by
    have h2 := dropWhile_eq_self isAsciiSpace l.reverse
      (fun b hb => h b (List.mem_reverse.mp hb))
    simp [trimRight, h2]
  rw [trimSpace, h1, trimLeft, dropWhile_eq_self _ _ h]

theorem natToDec_mem_digit {n b : Nat} (hb : b ∈ natToDec n) : 48 ≤ b ∧ b < 58 := by
  by_cases h : n = 0
  · subst h
    simp [natToDec] at hb
    omega
  · simp [natToDec, h, List.mem_reverse, List.mem_map] at hb
    obtain ⟨d, hd, rfl⟩ := hb
    have hlt := Nat.digits_lt_base (by norm_num) hd
    omega

theorem natToDec_ne_nil (n : Nat) : natToDec n ≠ [] := by
  by_cases h : n = 0
  · subst h
    simp [natToDec]
  · simp [natToDec, h, Nat.digits_ne_nil_iff_ne_zero]

theorem ten_not_mem_natToDec (n : Nat) : (10 : Nat) ∉ natToDec n := by
  intro h
  have := natToDec_mem_digit h
  omega

theorem trimSpace_natToDec (n : Nat) : trimSpace (natToDec n) = natToDec n := by
  apply trimSpace_eq_self
  intro b hb
  have := natToDec_mem_digit hb
  simp [isAsciiSpace]
  omega

theorem foldr_ofDigits (L : List Nat) :
    L.foldr (fun d y => 10 * y + d) 0 = Nat.ofDigits 10 L := by
  induction L with
  | nil => simp [Nat.ofDigits_nil]
  | cons d ds ih =>
    simp [Nat.ofDigits_cons, ih]
    ring

theorem decVal_natToDec (n : Nat) : decVal (natToDec n) = n := by
  by_cases h : n = 0
  · subst h
    simp [natToDec, decVal]
  · rw [natToDec, if_neg h, decVal, List.foldl_reverse, List.foldr_map]
    simp only [Nat.add_sub_cancel]
    rw [foldr_ofDigits, Nat.ofDigits_digits]

theorem digitsToNat_natToDec (n : Nat) : digitsToNat (natToDec n) = some n := by
  rw [digitsToNat, if_neg, if_pos, decVal_natToDec]
  · rw [List.all_eq_true]
    intro b hb
    have := natToDec_mem_digit hb
    simp
    omega
  · simp [List.isEmpty_iff, natToDec_ne_nil]

theorem atoi_natToDec (n : Nat) : atoi (natToDec n) = some (n : Int) := by
  obtain ⟨b, bs, hcons⟩ : ∃ b bs, natToDec n = b :: bs := by
    cases h : natToDec n with
    | nil => exact absurd h (natToDec_ne_nil n)
    | cons b bs => exact ⟨b, bs, rfl⟩
  have hb : 48 ≤ b ∧ b < 58 := natToDec_mem_digit (by rw [hcons]; simp)
  have h1 := digitsToNat_natToDec n
  rw [hcons] at h1 ⊢
  rw [atoi, if_neg (by omega), if_neg (by omega), h1]
  rfl

theorem isCommandType_cases {t : List Nat} (h : isCommandType t = true) :
    t = cmdGet ∨ t = cmdPut ∨ t = cmdDelete ∨ t = cmdTerminate := by
  simp [isCommandType] at h
  tauto

theorem commandType_line_props {t : List Nat} (h : isCommandType t = true) :
    (10 : Nat) ∉ t ∧ trimSpace t = t := by
  rcases isCommandType_cases h with rfl | rfl | rfl | rfl <;>
    exact ⟨by decide, by decide⟩

/-! ### Certificate-cache lemmas -/

theorem updateCert_ne (m : CertCache) (a : List Nat) (v : Option TLSCert) {b : List Nat}
    (h : b ≠ a) : updateCert m a v b = m b := by
  simp [updateCert, h]

theorem acmeOrSelfSigned_frame (env : Env) (cache : CertCache) (s name : List Nat)
    {k : List Nat} (h : k ≠ name) :
    (acmeOrSelfSigned env cache s name).cache k = cache k := by
  cases hacme : env.acme with
  | some cert => simp [acmeOrSelfSigned, hacme]
  | none =>
    cases hg : getTLSCert env s with
    | mk r kg =>
      cases r with
      | ok cert => simp [acmeOrSelfSigned, hacme, hg, updateCert_ne _ _ _ h]
      | error e => simp [acmeOrSelfSigned, hacme, hg]

/-! ### Claim C1 -/

/-- Claim C1 (code bug): the claim says every `DirCache.Get` call returns
within a fixed multi-second timeout, surfacing a cache miss when no
matching reply arrives in time.  The code has no timeout: the reply loop
`for response := range parentToChildCh` blocks until a matching reply
arrives or the channel is closed.  This theorem shows the blocking is
unbounded: for every `n`, after receiving `n` non-matching replies on a
still-open channel, `Get("example.com")` has not returned — so no fixed
bound on the number of received messages (nor, a fortiori, on time) makes
it return a cache miss. -/
theorem dirCacheGet_unbounded_wait (n : Nat) :
    (dirCacheGet (fun _ => none) exName (List.replicate n otherReply) false).result = none := by
  have hloop : ∀ m : Nat,
      dirCacheGetLoop exName (fun _ => none) (List.replicate m otherReply) false = none := by
    intro m
    induction m with
    | zero => rfl
    | succ m ih =>
      have h1 : otherReply.type = cmdGet := rfl
      have h2 : otherReply.name ≠ exName := by decide
      simp only [List.replicate_succ, dirCacheGetLoop, h1, h2, ih]
      simp [h2, ih]
  simp only [dirCacheGet, hloop n]

/-! ### Claim C2 -/

/-- Claim C2 counterexample: a cache entry whose remaining lifetime equals
the refresh threshold exactly (`NotAfter - now = threshold`) is NOT
evicted: `getCertificate` returns it from the cache and the cache still
holds it, contradicting the claim that `remaining == refreshThreshold` is
treated as expiring. -/
theorem getCertificate_boundary_counterexample :
    leafEx.notAfter - envBoundary.now = envBoundary.threshold ∧
    (getCertificate envBoundary cacheEx nameA).result = .ok certEx ∧
    (getCertificate envBoundary cacheEx nameA).cache nameA = some certEx := by
  refine ⟨by decide, rfl, by decide⟩

/-- Claim C2 (amended): the expiry comparison in `getCertificate` is
`duration < threshold`, so an entry with `remaining = refreshThreshold` is
still returned from the cache; every entry with
`remaining ≥ refreshThreshold` is returned (cache unchanged at the key),
and only `remaining < refreshThreshold` evicts the entry and falls
through to acquisition. -/
theorem getCertificate_expiry_boundary (env : Env) (cache : CertCache)
    (s name : List Nat) (cert : TLSCert) (l : Leaf)
    (hs : s ≠ []) (hname : env.toASCII s = some name)
    (hcache : cache name = some cert) (hleaf : cert.leaf = some l) :
    (env.threshold ≤ l.notAfter - env.now →
       (getCertificate env cache s).result = .ok cert ∧
       (getCertificate env cache s).cache name = some cert) ∧
    (l.notAfter - env.now < env.threshold →
       getCertificate env cache s =
         acmeOrSelfSigned env (updateCert cache name none) s name) := by
  constructor <;> intro hd
  · have hlt : ¬ (l.notAfter - env.now < env.threshold) := not_lt.mpr hd
    simp only [getCertificate, hs, hname, hcache, hleaf, hlt, ite_false, if_false]
    simp [hcache]
  · simp only [getCertificate, hs, hname, hcache, hleaf, hd, ite_true, if_pos]
    simp

/-- Claim C2 witness: `getCertificate_expiry_boundary` applied at the
boundary instance (`remaining = threshold = 48h`). -/
theorem getCertificate_expiry_boundary_witness :
    (getCertificate envBoundary cacheEx nameA).result = .ok certEx ∧
    (getCertificate envBoundary cacheEx nameA).cache nameA = some certEx :=
  (getCertificate_expiry_boundary envBoundary cacheEx nameA nameA certEx leafEx
    (by decide) rfl (by decide) rfl).1 (by decide)

/-! ### Claim C3 -/

/-- Claim C3 counterexample: with a successful ACME acquisition and an
empty in-memory certificate cache, `getCertificate` returns the ACME
certificate but the cache entry for the name is still absent afterwards —
the result was not stored in `certCache`, contradicting the claim. -/
theorem getCertificate_acme_not_cached_counterexample :
    (getCertificate envAcme (fun _ => none) nameA).result = .ok acmeCertEx ∧
    (getCertificate envAcme (fun _ => none) nameA).cache nameA = none :=
  ⟨rfl, rfl⟩

/-- Claim C3 (amended): when ACME acquisition succeeds on a cache miss,
`getCertificate` returns the acquired certificate WITHOUT storing it in
the worker's in-memory certificate cache: the cache is unchanged at every
key.  (Only the self-signed fallback path stores its result in
`certCache`.) -/
theorem getCertificate_acme_success_cache_unchanged (env : Env) (cache : CertCache)
    (s name : List Nat) (cert : TLSCert)
    (hs : s ≠ []) (hname : env.toASCII s = some name)
    (hmiss : cache name = none) (hacme : env.acme = some cert) :
    (getCertificate env cache s).result = .ok cert ∧
    ∀ k, (getCertificate env cache s).cache k = cache k := by
  simp only [getCertificate, hs, hname, hmiss, acmeOrSelfSigned, hacme]
  exact ⟨rfl, fun k => rfl⟩

/-- Claim C3 witness: `getCertificate_acme_success_cache_unchanged` at the
concrete ACME-success environment, with the cache read at the requested
name. -/
theorem getCertificate_acme_success_cache_unchanged_witness :
    (getCertificate envAcme (fun _ => none) nameA).result = .ok acmeCertEx ∧
    (getCertificate envAcme (fun _ => none) nameA).cache nameA = none :=
  ⟨(getCertificate_acme_success_cache_unchanged envAcme (fun _ => none) nameA nameA
      acmeCertEx (by decide) rfl rfl rfl).1,
   (getCertificate_acme_success_cache_unchanged envAcme (fun _ => none) nameA nameA
      acmeCertEx (by decide) rfl rfl rfl).2 nameA⟩

/-! ### Claim C4 -/

/-- Claim C4 counterexample: the Command whose name is a single space byte
does not round-trip — the decoder's `strings.TrimSpace` of the name line
turns the name into the empty byte sequence. -/
theorem encode_decode_counterexample :
    decodeStep (encodeCommand spaceNameCmd) =
      .frame { type := cmdGet, name := [], data := [] } [] ∧
    decodeStep (encodeCommand spaceNameCmd) ≠ .frame spaceNameCmd [] := by
  constructor <;> decide

/-- Claim C4 (amended): for every Command whose kind is one of the four
wire tokens and whose name is an ASCII line containing no newline and
unchanged by whitespace trimming, encoding with the outbound pump and
decoding with the inbound pump reproduces the Command exactly (kind, name
and payload — a zero-length payload decodes to the length-zero byte
sequence), leaving the rest of the stream for the next frame. -/
theorem encode_decode_roundtrip (c : Command) (rest : List Nat)
    (hk : isCommandType c.type = true)
    (hn : (10 : Nat) ∉ c.name)
    (_ha : ∀ b ∈ c.name, b < 128)
    (ht : trimSpace c.name = c.name) :
    decodeStep (encodeCommand c ++ rest) = .frame c rest := by
  obtain ⟨ht10, httrim⟩ := commandType_line_props hk
  have hstream : encodeCommand c ++ rest =
      c.type ++ 10 :: (c.name ++ 10 :: (natToDec c.data.length ++ 10 :: (c.data ++ rest))) := by
    simp [encodeCommand]
  have hneg : ¬ ((c.data.length : Int) < 0) := by omega
  have hlen : ¬ ((c.data ++ rest).length < c.data.length) := by
    simp [List.length_append]
  rw [hstream]
  simp only [decodeStep, readLine_append ht10, readLine_append hn,
    readLine_append (ten_not_mem_natToDec c.data.length),
    trimSpace_append_ten, httrim, ht, hk, trimSpace_natToDec, atoi_natToDec,
    Int.toNat_ofNat, hneg, hlen, List.take_left, List.drop_left,
    not_true, ite_false, if_false, Bool.not_eq_true]

/-- Claim C4 witness: `encode_decode_roundtrip` at a `[get]` Command with
a zero-length payload and at a `[put]` Command with a binary payload
(bytes 0 and 255), with trailing stream data. -/
theorem encode_decode_roundtrip_witness :
    decodeStep (encodeCommand { type := cmdGet, name := strBytes "example.com", data := [] } ++ [7]) =
      .frame { type := cmdGet, name := strBytes "example.com", data := [] } [7] ∧
    decodeStep (encodeCommand { type := cmdPut, name := strBytes "example.com", data := [0, 255, 10] } ++ [8]) =
      .frame { type := cmdPut, name := strBytes "example.com", data := [0, 255, 10] } [8] :=
  ⟨encode_decode_roundtrip _ [7] (by decide) (by decide) (by decide) (by decide),
   encode_decode_roundtrip _ [8] (by decide) (by decide) (by decide) (by decide)⟩

/-! ### Claim C5 -/

/-- Claim C5 (confirmed): a frame whose payload-length line does not parse
as a decimal number, and a frame whose stream ends before the declared
number of payload bytes, both make the inbound decoder terminate the
process (`log.Fatal`, modelled as `fatal`) instead of producing a frame or
continuing with the stream. -/
theorem decodeStep_malformed_fatal :
    (∀ (t nameL lenL rest : List Nat), isCommandType t = true →
       (10 : Nat) ∉ nameL → (10 : Nat) ∉ lenL → atoi (trimSpace lenL) = none →
       decodeStep (t ++ 10 :: (nameL ++ 10 :: (lenL ++ 10 :: rest))) = .fatal) ∧
    (∀ (t nameL rest : List Nat) (L : Nat), isCommandType t = true →
       (10 : Nat) ∉ nameL → rest.length < L →
       decodeStep (t ++ 10 :: (nameL ++ 10 :: (natToDec L ++ 10 :: rest))) = .fatal) := by
  constructor
  · intro t nameL lenL rest hk hn hl hatoi
    obtain ⟨ht10, httrim⟩ := commandType_line_props hk
    simp only [decodeStep, readLine_append ht10, readLine_append hn, readLine_append hl,
      trimSpace_append_ten, httrim, hk, hatoi, not_true, ite_false]
  · intro t nameL rest L hk hn hlen
    obtain ⟨ht10, httrim⟩ := commandType_line_props hk
    have hneg : ¬ ((L : Int) < 0) := by omega
    simp only [decodeStep, readLine_append ht10, readLine_append hn,
      readLine_append (ten_not_mem_natToDec L), trimSpace_append_ten, httrim, hk,
      trimSpace_natToDec, atoi_natToDec, Int.toNat_ofNat, hneg, hlen,
      not_true, ite_false, ite_true]

/-- Claim C5 witness: `decodeStep_malformed_fatal` at a `[get]` frame with
the non-numeric length line `"x"`, and at a `[get]` frame declaring five
payload bytes over a three-byte remainder. -/
theorem decodeStep_malformed_fatal_witness :
    decodeStep (cmdGet ++ 10 :: (strBytes "a" ++ 10 :: (strBytes "x" ++ 10 :: []))) = .fatal ∧
    decodeStep (cmdGet ++ 10 :: (strBytes "a" ++ 10 :: (natToDec 5 ++ 10 :: [1, 2, 3]))) = .fatal :=
  ⟨decodeStep_malformed_fatal.1 cmdGet (strBytes "a") (strBytes "x") []
     (by decide) (by decide) (by decide) (by decide),
   decodeStep_malformed_fatal.2 cmdGet (strBytes "a") [1, 2, 3] 5
     (by decide) (by decide) (by decide)⟩

/-! ### Claim C6 -/

/-- Claim C6 (confirmed): for a non-empty server name whose ASCII
conversion is itself (an ASCII domain) and which is in the self-signed
whitelist, with key generation and certificate construction succeeding,
`getTLSCert` returns a certificate whose subject common name is the
requested domain, whose `NotBefore` is the issuance time, and whose
`NotAfter` is `refreshThreshold + 14 days` after the issuance time. -/
theorem getTLSCert_fields (env : Env) (s : List Nat)
    (hs : s ≠ []) (hascii : env.toASCII s = some s)
    (hwl : env.whitelist s = true) (hkg : env.keyGenOk = true) (hcb : env.certBuildOk = true) :
    ∃ (cert : TLSCert) (b : Bool),
      getTLSCert env s = (.ok cert, b) ∧
      cert.content.commonName = s ∧
      cert.content.notBefore = env.now ∧
      cert.content.notAfter = env.now + env.threshold + 14 * 24 * timeHour := by
  refine ⟨{ leaf := none
            content := { serialNumber := 412294, commonName := s, notBefore := env.now,
                         notAfter := env.now + env.threshold + 14 * 24 * timeHour }
            parseable := true }, true, ?_, rfl, rfl, rfl⟩
  simp [getTLSCert, hs, hascii, hwl, hkg, hcb]

/-- Claim C6 witness: `getTLSCert_fields` at the whitelisted ASCII domain
`"a"` in `envBoundary`. -/
theorem getTLSCert_fields_witness :
    ∃ (cert : TLSCert) (b : Bool),
      getTLSCert envBoundary nameA = (.ok cert, b) ∧
      cert.content.commonName = nameA ∧
      cert.content.notBefore = envBoundary.now ∧
      cert.content.notAfter = envBoundary.now + envBoundary.threshold + 14 * 24 * timeHour :=
  getTLSCert_fields envBoundary nameA (by decide) rfl rfl rfl rfl

/-! ### Claim C7 -/

/-- Claim C7 (confirmed): `DirCache.Put` with a zero-length payload
returns a storage error, enqueues no command for the supervisor and leaves
the local bytes cache unchanged; and a `DirCache.Get` whose first matching
reply carries a zero-length payload returns `ErrCacheMiss` (never a
zero-length certificate value). -/
theorem dirCache_empty_payload_handling :
    (∀ (bytesCache : Store) (name : List Nat),
       (dirCachePut bytesCache name []).result = .error (.emptyData name) ∧
       (dirCachePut bytesCache name []).sent = [] ∧
       ∀ k, (dirCachePut bytesCache name []).bytesCache k = bytesCache k) ∧
    (∀ (bytesCache : Store) (name : List Nat) (pre post : List Command) (r : Command)
       (closed : Bool),
       bytesCache name = none →
       (∀ c ∈ pre, c.type = cmdGet → c.name ≠ name) →
       r.type = cmdGet → r.name = name → r.data = [] →
       (dirCacheGet bytesCache name (pre ++ r :: post) closed).result =
         some (.miss, bytesCache)) := by
  constructor
  · intro bytesCache name
    exact ⟨rfl, rfl, fun k => rfl⟩
  · intro bytesCache name pre post r closed hmiss hpre hr hrname hrdata
    have hloop : ∀ (pre2 : List Command), (∀ c ∈ pre2, c.type = cmdGet → c.name ≠ name) →
        dirCacheGetLoop name bytesCache (pre2 ++ r :: post) closed =
          some (.miss, bytesCache) := by
      intro pre2 hpre2
      induction pre2 with
      | nil =>
        have hnn : ¬ (r.name ≠ name) := by simp [hrname]
        simp only [List.nil_append, dirCacheGetLoop, hr, hnn, ite_false, hrdata]
        simp [hrname, hrdata]
      | cons c cs ih =>
        have hcs : ∀ x ∈ cs, x.type = cmdGet → x.name ≠ name :=
          fun x hx => hpre2 x (by simp [hx])
        by_cases hct : c.type = cmdGet
        · have hcname : c.name ≠ name := hpre2 c (by simp) hct
          simp only [List.cons_append, dirCacheGetLoop, hct, hcname, ih hcs]
          simp [hcname, ih hcs]
        · simp only [List.cons_append, dirCacheGetLoop, hct]
          simp [hct, ih hcs]
    simp only [dirCacheGet, hmiss, hloop pre hpre]

/-- Claim C7 witness: `dirCache_empty_payload_handling` with an empty
`Put` payload under `"example.com"`, and a `Get` for `"example.com"` whose
reply stream is a skipped `[put]` command followed by a matching `[get]`
reply with empty payload. -/
theorem dirCache_empty_payload_handling_witness :
    (dirCachePut (fun _ => none) exName []).result = .error (.emptyData exName) ∧
    (dirCachePut (fun _ => none) exName []).sent = [] ∧
    (dirCachePut (fun _ => none) exName []).bytesCache exName = none ∧
    (dirCacheGet (fun _ => none) exName
        ([{ type := cmdPut, name := exName, data := [5] }] ++
          { type := cmdGet, name := exName, data := [] } :: []) false).result =
      some (.miss, (fun _ => none : Store)) :=
  ⟨(dirCache_empty_payload_handling.1 (fun _ => none) exName).1,
   (dirCache_empty_payload_handling.1 (fun _ => none) exName).2.1,
   (dirCache_empty_payload_handling.1 (fun _ => none) exName).2.2 exName,
   dirCache_empty_payload_handling.2 (fun _ => none) exName
     [{ type := cmdPut, name := exName, data := [5] }] []
     { type := cmdGet, name := exName, data := [] } false rfl (by decide) rfl rfl rfl⟩

/-! ### Claim C8 -/

/-- Claim C8 (confirmed): `getCertificate` never touches any in-memory
certificate cache entry other than the one for the resolved name — in
particular, evicting an expiring entry removes only that domain's entry;
every other key's entry is unchanged on every path (hit, leaf
memoization, eviction, self-signed store). -/
theorem getCertificate_frame (env : Env) (cache : CertCache) (s name k : List Nat)
    (hname : env.toASCII s = some name) (hk : k ≠ name) :
    (getCertificate env cache s).cache k = cache k := by
  by_cases hs : s = []
  · simp [getCertificate, hs]
  · simp only [getCertificate, hs, hname, ite_false, if_false]
    cases hcache : cache name with
    | none =>
      simp only [hcache]
      exact acmeOrSelfSigned_frame env cache s name hk
    | some cert0 =>
      simp only [hcache]
      cases hleaf : cert0.leaf with
      | some l =>
        simp only [hleaf]
        by_cases hdur : l.notAfter - env.now < env.threshold
        · simp only [hdur, ite_true, if_pos]
          rw [acmeOrSelfSigned_frame env _ s name hk, updateCert_ne _ _ _ hk]
        · simp [hdur]
      | none =>
        simp only [hleaf]
        cases hparse : parseCertificate cert0 with
        | none => simp [hparse]
        | some l =>
          simp only [hparse]
          by_cases hdur : l.notAfter - env.now < env.threshold
          · simp only [hdur, ite_true, if_pos]
            rw [acmeOrSelfSigned_frame env _ s name hk, updateCert_ne _ _ _ hk,
              updateCert_ne _ _ _ hk]
          · simp only [hdur, ite_false, if_false]
            rw [updateCert_ne _ _ _ hk]

/-- Claim C8 witness: `getCertificate_frame` on the boundary environment:
resolving `"a"` (which evicts nothing here, but exercises the theorem)
leaves the entry of the unrelated key `"b"` unchanged. -/
theorem getCertificate_frame_witness :
    (getCertificate envBoundary cacheEx nameA).cache (strBytes "b") =
      cacheEx (strBytes "b") :=
  getCertificate_frame envBoundary cacheEx nameA nameA (strBytes "b") rfl (by decide)

/-! ### Claim C9 -/

/-- Claim C9 (confirmed): when the ASCII conversion of a non-empty server
name is not in the self-signed whitelist, `getTLSCert` fails with the
not-in-whitelist error and the key-generation step is never reached (the
returned flag records that `rsa.GenerateKey` was not invoked). -/
theorem getTLSCert_not_whitelisted_no_keygen (env : Env) (s a : List Nat)
    (hs : s ≠ []) (hascii : env.toASCII s = some a) (hwl : env.whitelist a = false) :
    getTLSCert env s = (.error (.notInWhiteList a), false) := by
  simp [getTLSCert, hs, hascii, hwl]

/-- Claim C9 witness: `getTLSCert_not_whitelisted_no_keygen` for the
domain `"a"` against an empty whitelist. -/
theorem getTLSCert_not_whitelisted_no_keygen_witness :
    getTLSCert envNoWl nameA = (.error (.notInWhiteList nameA), false) :=
  getTLSCert_not_whitelisted_no_keygen envNoWl nameA nameA (by decide) rfl rfl

/-! ### Claim C10 -/

/-- Claim C10 (confirmed): every certificate the self-signed issuer
returns successfully carries the constant serial number 412294, for every
environment and every requested domain. -/
theorem getTLSCert_serial_constant (env : Env) (s : List Nat) (cert : TLSCert) (b : Bool)
    (h : getTLSCert env s = (.ok cert, b)) :
    cert.content.serialNumber = 412294 := by
  simp only [getTLSCert] at h
  split at h
  · simp [Prod.ext_iff] at h
  · split at h
    · simp [Prod.ext_iff] at h
    · split at h
      · simp [Prod.ext_iff] at h
      · split at h
        · simp [Prod.ext_iff] at h
        · split at h
          · simp [Prod.ext_iff] at h
          · simp only [Prod.mk.injEq, Except.ok.injEq] at h
            obtain ⟨h1, _⟩ := h
            rw [← h1]

/-- Claim C10 witness: `getTLSCert_serial_constant` at the certificate
issued for `"a"` in `envBoundary`. -/
theorem getTLSCert_serial_constant_witness :
    ssCertEx.content.serialNumber = 412294 :=
  getTLSCert_serial_constant envBoundary nameA ssCertEx true rfl

end SSLServer
